import Mathlib

/-!
Shallow embedding of the `irc_server` crate (a single-node IRC server) and
proofs about its specified behaviour.

Conventions of the embedding:
* `DashMap`s become association lists (`aLookup` / `aInsert` / `aErase`),
  where `aInsert` replaces any existing binding (the `DashMap::insert`
  semantics) and `aLookup` finds the unique binding.
* `DashSet` / `HashSet` become `Finset` (insertion of a present element is a
  no-op, like `DashSet::insert` returning `false`).
* Async functions become pure state-passing functions; messages that the Rust
  code pushes into outbound queues or broadcast channels are returned as
  lists, in the order the code sends them.
* `SocketAddr` is modelled as an opaque `String`; the global `SERVER_NAME`
  becomes an explicit `srv` argument of the formatting functions.
-/

namespace Irc

/-- `types.rs`: `ClientId(pub usize)`. -/
abbrev ClientId := Nat

/-- `types.rs`: `ChannelName(pub String)`. -/
abbrev ChannelName := String

/-- `types.rs`: `Nickname(pub String)`. -/
abbrev Nickname := String

/-- Association-list lookup, first binding wins (model of `DashMap::get`). -/
def aLookup {α β : Type} [DecidableEq α] (l : List (α × β)) (k : α) : Option β :=
  match l with
  | [] => none
  | p :: rest => if p.1 = k then some p.2 else aLookup rest k

/-- Association-list insert that replaces any previous binding
(model of `DashMap::insert`). -/
def aInsert {α β : Type} [DecidableEq α] (l : List (α × β)) (k : α) (v : β) :
    List (α × β) :=
  (k, v) :: l.filter (fun p => decide (p.1 ≠ k))

/-- Association-list removal (model of `DashMap::remove`). -/
def aErase {α β : Type} [DecidableEq α] (l : List (α × β)) (k : α) :
    List (α × β) :=
  l.filter (fun p => decide (p.1 ≠ k))

/-- `user_state.rs`: `struct User` (the per-session mutable state).  The
`registered: AtomicBool` becomes a plain `Bool`; `member_of: DashSet` a
`Finset`. -/
structure User where
  user_id : Nat
  nick : Option String
  user : Option String
  modes : Finset Char
  full_user_name : Option String
  registered : Bool
  addr : String
  member_of : Finset ChannelName
deriving DecidableEq

/-- `user_state.rs`: `enum UserStatus`. -/
inductive UserStatus where
  | Handshaking
  | Active
  | Leaving (reason : Option String)
deriving DecidableEq

/-- `user_state.rs`: `MODE_WALLOPS = 0b0000_0100`. -/
def MODE_WALLOPS : Nat := 4

/-- `user_state.rs`: `MODE_INVISIBLE = 0b0000_1000`. -/
def MODE_INVISIBLE : Nat := 8

/-- `user_state.rs`: `UserState::parse_basic_user_mode`. -/
def parse_basic_user_mode (mode : Nat) : Finset Char :=
  let res : Finset Char := ∅
  let res := if mode &&& MODE_WALLOPS ≠ 0 then insert 'w' res else res
  if mode &&& MODE_INVISIBLE ≠ 0 then insert 'i' res else res

/-- `user_state.rs`: `UserState::with_user` (stores user name, realname and
the parsed mode bitmask). -/
def with_user (u : User) (user : String) (full_user_name : String) (mode : Nat) :
    User :=
  { u with
    user := some user
    full_user_name := some full_user_name
    modes := parse_basic_user_mode mode }

/-- `user_state.rs`: `UserState::is_registered`: already-registered sessions
stay registered; otherwise the session becomes registered exactly when both
`nick` and `user` are set.  Returns the answer and the updated session. -/
def is_registered (u : User) : Bool × User :=
  if u.registered then (true, u)
  else if u.nick.isNone ∨ u.user.isNone then (false, u)
  else (true, { u with registered := true })

/-- `errors.rs`: the one error variant the embedded fragment uses. -/
inductive InternalIrcError where
  | userStateError (msg : String)
deriving DecidableEq

instance {ε α : Type} [DecidableEq ε] [DecidableEq α] :
    DecidableEq (Except ε α) := fun x y =>
  match x, y with
  | .error a, .error b =>
    if h : a = b then isTrue (by rw [h]) else isFalse (by simp [h])
  | .ok a, .ok b =>
    if h : a = b then isTrue (by rw [h]) else isFalse (by simp [h])
  | .error _, .ok _ => isFalse (by simp)
  | .ok _, .error _ => isFalse (by simp)

/-- The two user-`MODE` error replies produced by `UserState::with_modes`. -/
inductive ModeReply where
  | errUModeUnknownFlag (nick : String)
  | errUsersDontMatch (nick : String)
deriving DecidableEq

/-- `user_state.rs`: `KNOWN_MODES` inside `with_modes`. -/
def KNOWN_MODES : List Char := ['a', 'i', 'w', 'r', 'o', 'O', 's']

/-- `user_state.rs`: the validity scan at the top of `with_modes`: every
group sign must be `+` or `-` and every mode char must be known. -/
def modes_are_valid (modes : List (Char × List Char)) : Bool :=
  modes.all fun p =>
    (p.1 == '-' || p.1 == '+') && p.2.all (fun m => KNOWN_MODES.contains m)

/-- Inner loop of `with_modes`: apply one `(flag, chars)` group to the
accumulator.  Faithful to the source: a `+` inserts a char only when it was
absent from the pre-command snapshot `current`; a non-`+` (i.e. `-`) erases
only when the char was present in `current`. -/
def applyModeGroup (current : Finset Char) (flag : Char) (ms : List Char)
    (acc : Finset Char) : Finset Char :=
  ms.foldl
    (fun acc2 m =>
      if flag = '+' then (if m ∉ current then insert m acc2 else acc2)
      else (if m ∈ current then acc2.erase m else acc2))
    acc

/-- Outer loop of `with_modes` over the mode groups, starting from a clone of
the current flags. -/
def applyModeChanges (current : Finset Char) (modes : List (Char × List Char)) :
    Finset Char :=
  modes.foldl (fun acc p => applyModeGroup current p.1 p.2 acc) current

/-- `user_state.rs`: `UserState::with_modes`.  Validity is checked first
(`ERR_UMODEUNKNOWNFLAG`), then registration, then that the target nickname is
the session's own (`ERR_USERSDONTMATCH`); only then are the changes applied
against the pre-command snapshot of the mode set. -/
def with_modes (u : User) (nick : String) (modes : List (Char × List Char)) :
    Except InternalIrcError (Option ModeReply × User) :=
  if ¬ modes_are_valid modes then
    .ok (some (.errUModeUnknownFlag nick), u)
  else if ¬ u.registered then
    .error (.userStateError "Cannot change of an unregistered user")
  else if u.nick ≠ some nick then
    .ok (some (.errUsersDontMatch nick), u)
  else
    .ok (none, { u with modes := applyModeChanges u.modes modes })

/-- `channels_models.rs`: `struct ChannelModes` (the `private` field is named
`privateFlag` here because `private` is a Lean keyword). -/
structure ChannelModes where
  invite_only : Bool
  moderated : Bool
  no_external_msgs : Bool
  privateFlag : Bool
  secret : Bool
  topic_lock : Bool
  key : Option String
  user_limit : Option Nat
  ban_list : Finset ClientId
  except_list : Finset ClientId
  invite_exceptions : Finset ClientId
deriving DecidableEq

/-- `channels_models.rs`: `ChannelModes::default`. -/
def ChannelModes.default : ChannelModes :=
  { invite_only := false, moderated := false, no_external_msgs := false
    privateFlag := false, secret := false, topic_lock := false
    key := none, user_limit := none
    ban_list := ∅, except_list := ∅, invite_exceptions := ∅ }

/-- `channels_models.rs`: `struct IrcChannel` (the broadcast sender `tx` and
the `kind` tag are not needed by any claim; `kind` is always `Network`). -/
structure IrcChannel where
  name : ChannelName
  topic : Option String
  topic_set_by : Option Nat
  topic_set_at : Option Nat
  members : Finset ClientId
  operators : Finset ClientId
  voiced : Finset ClientId
  modes : ChannelModes
deriving DecidableEq

/-- `channels_models.rs`: `IrcChannel::new`. -/
def IrcChannel.new (name : ChannelName) : IrcChannel :=
  { name := name, topic := none, topic_set_by := none, topic_set_at := none
    members := ∅, operators := ∅, voiced := ∅, modes := ChannelModes.default }

/-- `channels_models.rs`: `enum IrcChannelOperationStatus`. -/
inductive IrcChannelOperationStatus where
  | NewJoin
  | AlreadyMember
  | InviteOnlyChan
  | ChannelIsFull
  | NoSuchChannel
  | TooManyTargets
  | BannedFromChan
  | BadChannelKey
  | BadChanMask
  | TooManyChannels
  | UnavailableResource
deriving DecidableEq

/-- `server_state.rs`: `struct ServerState` (IP addresses as strings). -/
structure ServerState where
  channels : List (ChannelName × IrcChannel)
  ip_counts : List (String × Nat)
  nick : List (Nickname × ClientId)
  users : List (ClientId × User)
deriving DecidableEq

/-- `server_state.rs`: `ServerState::get_or_create_channel`.  Returns the
channel, whether it was newly created, and the (possibly extended) state. -/
def get_or_create_channel (s : ServerState) (channel_name : ChannelName) :
    IrcChannel × Bool × ServerState :=
  match aLookup s.channels channel_name with
  | some c => (c, false, s)
  | none =>
    let c := IrcChannel.new channel_name
    (c, true, { s with channels := aInsert s.channels channel_name c })

/-- `server_state.rs`: `ServerState::handle_join`.  The access checks run in
source order (user limit, ban list minus exception list, invite-only minus
invitation and invite exceptions, key); then `add_member` distinguishes
`AlreadyMember` from `NewJoin`, and on a fresh channel the joiner is also made
operator.  Returns the status, the joined channel on `NewJoin` (the Rust code
returns the mutated `Arc`), and the new state. -/
def handle_join (s : ServerState) (channel_name : ChannelName)
    (client_id : ClientId) (key : Option String) (is_invited : Bool) :
    IrcChannelOperationStatus × Option IrcChannel × ServerState :=
  let r := get_or_create_channel s channel_name
  let channel := r.1
  let is_new_channel := r.2.1
  let s1 := r.2.2
  if channel.modes.user_limit.isSome ∧
      channel.modes.user_limit.getD 0 ≤ channel.members.card then
    (.ChannelIsFull, none, s1)
  else if client_id ∈ channel.modes.ban_list ∧
      client_id ∉ channel.modes.except_list then
    (.BannedFromChan, none, s1)
  else if channel.modes.invite_only = true ∧ is_invited = false ∧
      client_id ∉ channel.modes.invite_exceptions then
    (.InviteOnlyChan, none, s1)
  else if channel.modes.key.isSome ∧ channel.modes.key ≠ key then
    (.BadChannelKey, none, s1)
  else if client_id ∈ channel.members then
    (.AlreadyMember, none, s1)
  else
    let c1 := { channel with members := insert client_id channel.members }
    let c2 :=
      if is_new_channel then
        { c1 with operators := insert client_id c1.operators }
      else c1
    (.NewJoin, some c2, { s1 with channels := aInsert s1.channels channel_name c2 })

/-- Decision procedure transcribed from the words of claim C1 (the spec's
`try_join` contract): which of the six outcomes a JOIN of channel `c` by `id`
with key `key` and invited flag `inv` must produce. -/
def try_join_claim (c : IrcChannel) (id : ClientId) (key : Option String)
    (inv : Bool) : IrcChannelOperationStatus :=
  if c.modes.user_limit.isSome ∧ c.modes.user_limit.getD 0 ≤ c.members.card then
    .ChannelIsFull
  else if id ∈ c.modes.ban_list ∧ id ∉ c.modes.except_list then
    .BannedFromChan
  else if c.modes.invite_only = true ∧ inv = false ∧
      id ∉ c.modes.invite_exceptions then
    .InviteOnlyChan
  else if c.modes.key.isSome ∧ c.modes.key ≠ key then
    .BadChannelKey
  else if id ∈ c.members then
    .AlreadyMember
  else
    .NewJoin

/-- The channel contents claim C1 predicts after a `NewJoin`: the joiner is a
member, and additionally an operator when the channel was newly created. -/
def joined_channel (c : IrcChannel) (is_new : Bool) (id : ClientId) : IrcChannel :=
  { c with
    members := insert id c.members
    operators := if is_new then insert id c.operators else c.operators }

/-- Enumerate a `Finset` of client ids in ascending order.  (Stands in for
iterating a `DashSet`, whose order is unspecified; insertion sort is used
because it computes by structural recursion.) -/
def sortedMembers (s : Finset ClientId) : List ClientId :=
  Quotient.liftOn s.val (fun l => l.insertionSort (· ≤ ·))
    (fun a b h =>
      List.eq_of_perm_of_sorted
        ((List.perm_insertionSort _ a).trans (h.trans (List.perm_insertionSort _ b).symm))
        (List.sorted_insertionSort _ a) (List.sorted_insertionSort _ b))

/-- `server_state.rs`: `ServerState::get_unique_neighboors`: the set of
members of any of the given channels, minus the excluded id.  A `HashSet` in
the source; a `Finset` here. -/
def get_unique_neighboors (s : ServerState) (channel_names : Finset ChannelName)
    (exclude_id : Option ClientId) : Finset ClientId :=
  channel_names.biUnion fun n =>
    match aLookup s.channels n with
    | some c => c.members.filter (fun m => some m ≠ exclude_id)
    | none => (∅ : Finset ClientId)

/-- `server_state.rs`: `ServerState::broadcast_to_neighbors`: one copy of the
message is pushed to the outbound queue of every unique neighbour that still
has a session.  The `HashSet` iteration order is unspecified, so the
collection of enqueue events is a multiset of (recipient, line) pairs. -/
def broadcast_to_neighbors (s : ServerState) (channel_names : Finset ChannelName)
    (message : String) (exclude_id : Option ClientId) :
    Multiset (ClientId × String) :=
  ((get_unique_neighboors s channel_names exclude_id).filter
      (fun n => (aLookup s.users n).isSome = true)).val.map
    (fun n => (n, message))

/-- `server_state.rs`: the channel-cleanup loop at the end of `handle_quit`:
remove the quitter from each channel it belonged to and destroy channels that
become empty.  The source iterates `member_of` and mutates the channel map;
since distinct keys are independent, this is the same as transforming each
affected binding of the map in place. -/
def quit_cleanup_channels (s : ServerState) (client_id : ClientId)
    (member_of : Finset ChannelName) : ServerState :=
  { s with
    channels := s.channels.filterMap fun p =>
      if p.1 ∈ member_of then
        let c2 := { p.2 with members := p.2.members.erase client_id }
        if c2.members = ∅ then none else some (p.1, c2)
      else some p }

/-- `server_state.rs`: `ServerState::handle_quit`: remove the session from the
`users` index, broadcast one QUIT relay per unique neighbour (excluding the
quitter), then clean up the channels.  The `nick` index is untouched, exactly
as in the source.  Returns the new state and the enqueued (recipient, line)
pairs.  The `unwrap`s on nick/user are modelled by `getD ""`. -/
def handle_quit (s : ServerState) (client_id : ClientId) (reason : Option String) :
    ServerState × Multiset (ClientId × String) :=
  let quit_reason := reason.getD "Client Quit"
  match aLookup s.users client_id with
  | none => (s, ∅)
  | some u =>
    let s1 : ServerState := { s with users := aErase s.users client_id }
    let quit_msg :=
      ":" ++ u.nick.getD "" ++ "!" ++ u.user.getD "" ++ "@" ++ u.addr ++
        " QUIT :" ++ quit_reason
    let sends := broadcast_to_neighbors s1 u.member_of quit_msg (some client_id)
    (quit_cleanup_channels s1 client_id u.member_of, sends)

/-- `server_state.rs`: `ServerState::add_connecting_user`: index the session
by nickname (when one is set) and by connection id; both `DashMap::insert`s
overwrite silently. -/
def add_connecting_user (s : ServerState) (u : User) : ServerState × ClientId :=
  let s1 :=
    match u.nick with
    | some nk => { s with nick := aInsert s.nick nk u.user_id }
    | none => s
  ({ s1 with users := aInsert s1.users u.user_id u }, u.user_id)

/-- Render a numeric reply code the way Rust's `{:03}` format does. -/
def fmt3 (n : Nat) : String :=
  if n < 10 then "00" ++ toString n
  else if n < 100 then "0" ++ toString n
  else toString n

/-- `constants.rs`: `RPL_WELCOME_NB`. -/
def RPL_WELCOME_NB : Nat := 1

/-- `constants.rs`: `RPL_NOTOPIC_NB`. -/
def RPL_NOTOPIC_NB : Nat := 331

/-- `constants.rs`: `RPL_TOPIC_NB`. -/
def RPL_TOPIC_NB : Nat := 332

/-- `constants.rs`: `RPL_NAMREPLY_NB`. -/
def RPL_NAMREPLY_NB : Nat := 353

/-- `constants.rs`: `RPL_ENDOFNAMES_NB`.  The source sets this constant to
`353`, although the RFC comment right above it says 366. -/
def RPL_ENDOFNAMES_NB : Nat := 353

/-- `constants.rs`: `ERR_UNKNOWNCOMMAND_NB`. -/
def ERR_UNKNOWNCOMMAND_NB : Nat := 421

/-- `constants.rs`: `ERR_NICKNAMEINUSE_NB`. -/
def ERR_NICKNAMEINUSE_NB : Nat := 433

/-- `constants.rs`: `ERR_NOTREGISTERED_NB`. -/
def ERR_NOTREGISTERED_NB : Nat := 451

/-- `constants.rs`: `ERR_CHANNELISFULL_NB`. -/
def ERR_CHANNELISFULL_NB : Nat := 471

/-- `constants.rs`: `ERR_INVITEONLYCHAN_NB`. -/
def ERR_INVITEONLYCHAN_NB : Nat := 473

/-- `constants.rs`: `ERR_BANNEDFROMCHAN_NB`. -/
def ERR_BANNEDFROMCHAN_NB : Nat := 474

/-- `constants.rs`: `ERR_BADCHANNELKEY_NB`. -/
def ERR_BADCHANNELKEY_NB : Nat := 475

/-- `replies.rs`: `IrcReply::Welcome`. -/
def formatWelcome (srv nick user host : String) : String :=
  ":" ++ srv ++ " " ++ fmt3 RPL_WELCOME_NB ++ " " ++ nick ++
    " :Welcome to the Internet Relay Network " ++ nick ++ "!" ++ user ++ "@" ++ host

/-- `replies.rs`: `IrcReply::ErrNicknameInUse`. -/
def formatErrNicknameInUse (srv nick : String) : String :=
  ":" ++ srv ++ " " ++ fmt3 ERR_NICKNAMEINUSE_NB ++ " " ++ nick ++
    " :Nickname is already in use"

/-- `replies.rs`: `IrcReply::ErrNotRegistered` (note: `ERR_NOTREGISTERED_STR`
itself begins with a colon in `constants.rs`, so the line carries two). -/
def formatErrNotRegistered (srv nick : String) : String :=
  ":" ++ srv ++ " " ++ fmt3 ERR_NOTREGISTERED_NB ++ " " ++ nick ++
    " ::You have not registered"

/-- `replies.rs`: `IrcReply::ErrUnknownCommand`. -/
def formatErrUnknownCommand (srv nick command : String) : String :=
  ":" ++ srv ++ " " ++ fmt3 ERR_UNKNOWNCOMMAND_NB ++ " " ++ nick ++ " " ++
    command ++ " :Unknown command"

/-- `replies.rs`: `IrcReply::NoTopic`. -/
def formatNoTopic (srv nick channel : String) : String :=
  ":" ++ srv ++ " " ++ fmt3 RPL_NOTOPIC_NB ++ " " ++ nick ++ " " ++ channel ++
    " :No topic is set"

/-- `replies.rs`: `IrcReply::Topic` (the source format really has two spaces
between the nick and the channel). -/
def formatTopic (srv nick channel topic : String) : String :=
  ":" ++ srv ++ " " ++ fmt3 RPL_TOPIC_NB ++ " " ++ nick ++ "  " ++ channel ++
    " :" ++ topic

/-- `replies.rs`: `IrcReply::Names`. -/
def formatNames (srv nick visibility channel names : String) : String :=
  ":" ++ srv ++ " " ++ fmt3 RPL_NAMREPLY_NB ++ " " ++ nick ++ " " ++
    visibility ++ " " ++ channel ++ " :" ++ names

/-- `replies.rs`: `IrcReply::EndOfName`. -/
def formatEndOfName (srv nick channel : String) : String :=
  ":" ++ srv ++ " " ++ fmt3 RPL_ENDOFNAMES_NB ++ " " ++ nick ++ " " ++
    channel ++ " :End of NAMES list"

/-- `replies.rs`: `IrcReply::ErrChannelIsFull` (the source interpolates
`ERR_INVITEONLYCHAN_STR` into this reply). -/
def formatErrChannelIsFull (srv channel : String) : String :=
  ":" ++ srv ++ " " ++ fmt3 ERR_CHANNELISFULL_NB ++ " " ++ channel ++
    " :Cannot join channel (+i)"

/-- `replies.rs`: `IrcReply::ErrBannedFromChan`. -/
def formatErrBannedFromChan (srv channel : String) : String :=
  ":" ++ srv ++ " " ++ fmt3 ERR_BANNEDFROMCHAN_NB ++ " " ++ channel ++
    " :Cannot join channel (+b)"

/-- `replies.rs`: `IrcReply::ErrInviteOnlyChan`. -/
def formatErrInviteOnlyChan (srv channel : String) : String :=
  ":" ++ srv ++ " " ++ fmt3 ERR_INVITEONLYCHAN_NB ++ " " ++ channel ++
    " :Cannot join channel (+i)"

/-- `replies.rs`: `IrcReply::ErrBadChannelKey`. -/
def formatErrBadChannelKey (srv channel : String) : String :=
  ":" ++ srv ++ " " ++ fmt3 ERR_BADCHANNELKEY_NB ++ " " ++ channel ++
    " :Cannot join channel (+k)"

/-- `replies.rs`: `MessageReply::BroadcastJoinMsg`. -/
def formatBroadcastJoinMsg (nick user host channel : String) : String :=
  ":" ++ nick ++ "!" ++ user ++ "@" ++ host ++ " JOIN :" ++ channel

/-- `replies.rs`: `MessageReply::ChannelPrivMsg`. -/
def formatChannelPrivMsg (nick_from user_from host_from channel message : String) :
    String :=
  ":" ++ nick_from ++ "!" ++ user_from ++ "@" ++ host_from ++ " PRIVMSG " ++
    channel ++ " :" ++ message

/-- `handlers/channels.rs`: `handle_names_reply`: the visibility symbol from
the channel modes and the prefixed member list.  The Rust loop appends
`"{pfx}{nick} "` per member and trims the trailing space; that is modelled by
`String.intercalate " "`.  Members with no session entry are skipped. -/
def handle_names_reply (channel : IrcChannel) (s : ServerState) : String × String :=
  let visibility :=
    if channel.modes.secret then "@"
    else if channel.modes.privateFlag then "*"
    else "="
  let entries :=
    (sortedMembers channel.members).filterMap fun client_id =>
      match aLookup s.users client_id with
      | some u =>
        let pfx :=
          if client_id ∈ channel.operators then "@"
          else if client_id ∈ channel.voiced then "+"
          else ""
        some (pfx ++ u.nick.getD "")
      | none => none
  (visibility, String.intercalate " " entries)

/-- `handlers/channels.rs`: the body of `handle_join_channel` for one
`(channel, key)` pair.  Returns, in order: the direct replies enqueued to the
joiner's outbound queue, the messages broadcast to the channel, the new server
state, and the new session state.  On `NewJoin` the joiner is subscribed and
the JOIN relay is broadcast before the topic / names burst is sent directly;
on each denial a single error reply is sent; on `AlreadyMember` nothing at all
happens. -/
def handle_join_channel_one (srv : String) (s : ServerState) (client_id : ClientId)
    (u : User) (channel_name : ChannelName) (key : Option String) :
    List String × List String × ServerState × User :=
  let nick := u.nick.getD "*"
  let user := u.user.getD "*"
  let host := u.addr
  if u.registered = false then
    ([formatErrNotRegistered srv nick], [], s, u)
  else
    let r := handle_join s channel_name client_id key false
    match r.1, r.2.1 with
    | .NewJoin, some channel =>
      let s2 := r.2.2
      let joinRelay := formatBroadcastJoinMsg nick user host channel_name
      let topicReply :=
        match channel.topic with
        | some t => formatTopic srv nick channel_name t
        | none => formatNoTopic srv nick channel_name
      let nr := handle_names_reply channel s2
      let namesReply := formatNames srv nick nr.1 channel_name nr.2
      let endReply := formatEndOfName srv nick channel_name
      ([topicReply, namesReply, endReply], [joinRelay], s2,
        { u with member_of := insert channel_name u.member_of })
    | .ChannelIsFull, _ => ([formatErrChannelIsFull srv channel_name], [], r.2.2, u)
    | .BannedFromChan, _ => ([formatErrBannedFromChan srv channel_name], [], r.2.2, u)
    | .InviteOnlyChan, _ => ([formatErrInviteOnlyChan srv channel_name], [], r.2.2, u)
    | .BadChannelKey, _ => ([formatErrBadChannelKey srv channel_name], [], r.2.2, u)
    | _, _ => ([], [], r.2.2, u)

/-- `handlers/registration.rs`: `when_registered`: snapshot the session,
index it in the server registry (overwriting any existing nick binding —
there is no collision check on this path), send the 001 welcome and return
`Active`. -/
def when_registered (srv : String) (s : ServerState) (u : User) :
    UserStatus × List String × ServerState :=
  let nick := u.nick.getD ""
  let user := u.user.getD ""
  let host := u.addr
  let s1 := (add_connecting_user s u).1
  (UserStatus.Active, [formatWelcome srv nick user host], s1)

/-- `handlers/registration.rs`: `handle_user_registration`: store the USER
data, then finalize registration when both nick and user are now known. -/
def handle_user_registration (srv : String) (s : ServerState) (u : User)
    (user_name : String) (mode : Nat) (real_name : String) :
    UserStatus × List String × ServerState × User :=
  let u1 := with_user u user_name real_name mode
  let reg := is_registered u1
  if reg.1 then
    let w := when_registered srv s reg.2
    (w.1, w.2.1, w.2.2, reg.2)
  else
    (UserStatus.Handshaking, [], s, reg.2)

/-- `handlers/miscellanneous.rs`: `take_till(|c| c == ' ')` — the leading
token of the line (defined over the character list so concrete instances
compute). -/
def take_till_space (input : String) : String :=
  String.mk (input.data.takeWhile (fun c => c != ' '))

/-- `handlers/miscellanneous.rs`: `IrcUnknownCommand::handle_command`: format
the 421 reply with the registered nickname or `*`, send it, and return a
status (the session state itself is never written).  Result: the reply line,
the returned status, and the (unchanged) session. -/
def IrcUnknownCommand.handle_command (srv : String) (command : String) (u : User) :
    String × UserStatus × User :=
  let parsed_command := take_till_space command
  let nick := if u.registered then u.nick.getD "" else "*"
  let reply := formatErrUnknownCommand srv nick parsed_command
  let status := if nick ≠ "*" then UserStatus.Handshaking else UserStatus.Active
  (reply, status, u)

/-- `message_models.rs`: `DirectIrcMessage`. -/
structure DirectIrcMessage where
  sender : Option ClientId
  raw_line : String
deriving DecidableEq

/-- The broadcast-channel payload (`BroadcastIrcMessage`): carries the raw
line and the sender id attached by `new_with_sender`. -/
structure BroadcastIrcMessage where
  sender : Option ClientId
  raw_line : String
deriving DecidableEq

/-- `message_models.rs`: the CRLF-appending constructor logic shared by
`new` / `new_with_sender`. -/
def withCRLF (line : String) : String :=
  if String.mk ((line.data.reverse.take 2).reverse) = "\r\n" then line
  else line ++ "\r\n"

/-- `handlers/messages.rs`: the `MessageTo::ChannelName` arm of
`handle_privmsg`: when the channel exists, broadcast one `ChannelPrivMsg`
line tagged with the sender's id (`new_with_sender`); when it does not,
nothing is sent (the source `else` is a TODO). -/
def handle_privmsg_channel (s : ServerState) (client_id : ClientId) (u : User)
    (channel : ChannelName) (message : String) : List BroadcastIrcMessage :=
  match aLookup s.channels channel with
  | some _ =>
    [{ sender := some client_id
       raw_line := withCRLF (formatChannelPrivMsg (u.nick.getD "")
         (u.user.getD "") u.addr channel message) }]
  | none => []

/-- `handlers/client.rs`: the per-subscription forwarder body inside
`client_writer_task` (lines 144-151): every message received from the channel
broadcast is converted to a `DirectIrcMessage` with `sender := none` and
forwarded to the subscriber's aggregated stream.  The subscriber id and the
message's sender are ignored: there is no sender-exclusion filter. -/
def forwarder_step (subscriber : ClientId) (msg : BroadcastIrcMessage) :
    Option DirectIrcMessage :=
  let _ := subscriber
  some { sender := none, raw_line := msg.raw_line }

/-- Modelled from the spec: the forwarder behaviour claim C5 asserts — the
per-subscription forwarder feeding a subscriber's writer excludes messages
whose sender is that subscriber (echo suppression with `echo-message`
disabled). -/
def forwarder_step_claim (subscriber : ClientId) (msg : BroadcastIrcMessage) :
    Option DirectIrcMessage :=
  if msg.sender = some subscriber then none
  else some { sender := none, raw_line := msg.raw_line }

/-! Concrete fixtures used by counterexamples and witnesses. -/

/-- A registered session `alice` (id 7) with an empty mode set. -/
def uAlice : User :=
  { user_id := 7, nick := some "alice", user := some "alice", modes := ∅
    full_user_name := none, registered := true, addr := "h", member_of := ∅ }

/-- A registered session `carol` (id 3) whose mode set is exactly `{'i'}`. -/
def uCarol : User :=
  { user_id := 3, nick := some "carol", user := some "carol", modes := {'i'}
    full_user_name := none, registered := true, addr := "h", member_of := ∅ }

/-- The empty server state. -/
def emptyState : ServerState :=
  { channels := [], ip_counts := [], nick := [], users := [] }

/-- A registered session `alice` with id 1 on host `host`. -/
def aliceReg : User :=
  { user_id := 1, nick := some "alice", user := some "alice", modes := ∅
    full_user_name := some "Alice A", registered := true, addr := "host"
    member_of := ∅ }

/-- A server with only `alice` registered and no channels. -/
def sAlice : ServerState :=
  { channels := [], ip_counts := [], nick := [("alice", 1)]
    users := [(1, aliceReg)] }

/-- A registered session `bob` with id 1. -/
def bobReg : User :=
  { user_id := 1, nick := some "bob", user := some "bob", modes := ∅
    full_user_name := none, registered := true, addr := "h", member_of := ∅ }

/-- A second, unregistered session that has already taken the nickname `bob`
(via NICK) but has not sent USER yet. -/
def bobSecond : User :=
  { user_id := 2, nick := some "bob", user := none, modes := ∅
    full_user_name := none, registered := false, addr := "h2", member_of := ∅ }

/-- A server in which session 1 is registered as `bob`. -/
def sBob : ServerState :=
  { channels := [], ip_counts := [], nick := [("bob", 1)], users := [(1, bobReg)] }

/-- A server in which `alice` (id 1) and id 2 are both members of `#c`. -/
def sChanC : ServerState :=
  { channels := [("#c", { IrcChannel.new "#c" with members := {1, 2} })]
    ip_counts := [], nick := [("alice", 1)], users := [(1, aliceReg)] }

/-- The broadcast payload `alice` produces with `PRIVMSG #c :hi`. -/
def privmsgHi : BroadcastIrcMessage :=
  { sender := some 1, raw_line := ":alice!alice@host PRIVMSG #c :hi\r\n" }

/-- Session `a` (id 1), member of `#x` and `#y`. -/
def uQuitter : User :=
  { user_id := 1, nick := some "a", user := some "a", modes := ∅
    full_user_name := none, registered := true, addr := "h"
    member_of := {"#x", "#y"} }

/-- Session `b` (id 2), member of `#x` and `#y`. -/
def uNeighbor : User :=
  { user_id := 2, nick := some "b", user := some "b", modes := ∅
    full_user_name := none, registered := true, addr := "h"
    member_of := {"#x", "#y"} }

/-- A server in which ids 1 and 2 share both `#x` and `#y`. -/
def sShared : ServerState :=
  { channels := [("#x", { IrcChannel.new "#x" with members := {1, 2} }),
                 ("#y", { IrcChannel.new "#y" with members := {1, 2} })]
    ip_counts := [], nick := [("a", 1), ("b", 2)]
    users := [(1, uQuitter), (2, uNeighbor)] }

/-! Helper lemmas about the association-list maps. -/

theorem aLookup_aInsert_self {α β : Type} [DecidableEq α] (l : List (α × β))
    (k : α) (v : β) : aLookup (aInsert l k v) k = some v := by
  simp [aLookup, aInsert]

theorem aLookup_filterKeyNe {α β : Type} [DecidableEq α] (l : List (α × β))
    (k k2 : α) (h : k2 ≠ k) :
    aLookup (l.filter fun p => decide (p.1 ≠ k)) k2 = aLookup l k2 := by
  induction l with
  | nil => rfl
  | cons p rest ih =>
    rw [List.filter_cons]
    by_cases hp : p.1 = k
    · have hd : decide (p.1 ≠ k) = false := by simp [hp]
      have hne : ¬ p.1 = k2 := by rw [hp]; exact fun hh => h hh.symm
      rw [hd]
      simp only [Bool.false_eq_true, if_false, ih, aLookup, hne, if_neg hne]
    · have hd : decide (p.1 ≠ k) = true := by simp [hp]
      rw [hd, if_pos rfl]
      by_cases hp2 : p.1 = k2
      · simp only [aLookup, if_pos hp2]
      · simp only [aLookup, if_neg hp2, ih]

theorem aLookup_aInsert_ne {α β : Type} [DecidableEq α] (l : List (α × β))
    (k k2 : α) (v : β) (h : k2 ≠ k) :
    aLookup (aInsert l k v) k2 = aLookup l k2 := by
  have hk : ¬ k = k2 := fun hh => h hh.symm
  rw [aInsert]
  show (if k = k2 then some v else aLookup (l.filter fun p => decide (p.1 ≠ k)) k2) =
    aLookup l k2
  rw [if_neg hk, aLookup_filterKeyNe l k k2 h]

theorem aLookup_aErase_ne {α β : Type} [DecidableEq α] (l : List (α × β))
    (k k2 : α) (h : k2 ≠ k) : aLookup (aErase l k) k2 = aLookup l k2 :=
  aLookup_filterKeyNe l k k2 h

theorem aLookup_aErase_self {α β : Type} [DecidableEq α] (l : List (α × β))
    (k : α) : aLookup (aErase l k) k = none := by
  induction l with
  | nil => rfl
  | cons p rest ih =>
    rw [aErase, List.filter_cons]
    by_cases hp : p.1 = k
    · have hd : decide (p.1 ≠ k) = false := by simp [hp]
      rw [hd]
      simpa only [Bool.false_eq_true, if_false] using ih
    · have hd : decide (p.1 ≠ k) = true := by simp [hp]
      rw [hd, if_pos rfl]
      simpa only [aLookup, if_neg hp] using ih

/-- After `get_or_create_channel`, the channel is bound to its name. -/
theorem lookup_get_or_create (s : ServerState) (n : ChannelName) :
    aLookup (get_or_create_channel s n).2.2.channels n =
      some (get_or_create_channel s n).1 := by
  unfold get_or_create_channel
  cases h : aLookup s.channels n with
  | some c => simp [h]
  | none => simp [h, aLookup_aInsert_self]

/-- When the channel already exists, `get_or_create_channel` is the identity. -/
theorem get_or_create_of_lookup {s : ServerState} {n : ChannelName}
    {c : IrcChannel} (h : aLookup s.channels n = some c) :
    get_or_create_channel s n = (c, false, s) := by
  simp [get_or_create_channel, h]

/-- C1: `ServerState::handle_join` returns exactly the outcome prescribed by
the spec's `try_join` decision procedure (user limit, then ban list minus
exception list, then invite-only minus invitation / invite exceptions, then
key, then membership), and afterwards the channel bound to the name is: on
`NewJoin`, the old channel with the caller added to `members` (and to
`operators` when the channel was newly created); on every other outcome, the
channel from before the call, so `members` and `operators` are unchanged. -/
theorem c1_handle_join_matches_try_join (s : ServerState) (name : ChannelName)
    (id : ClientId) (key : Option String) (inv : Bool) :
    (handle_join s name id key inv).1 =
      try_join_claim (get_or_create_channel s name).1 id key inv
  ∧ aLookup (handle_join s name id key inv).2.2.channels name =
      some (if (handle_join s name id key inv).1 = .NewJoin
            then joined_channel (get_or_create_channel s name).1
                   (get_or_create_channel s name).2.1 id
            else (get_or_create_channel s name).1) := by
  have hl := lookup_get_or_create s name
  rcases hgg : get_or_create_channel s name with ⟨c, isNew, s1⟩
  rw [hgg] at hl
  simp only [handle_join, try_join_claim, hgg]
  by_cases h1 : c.modes.user_limit.isSome = true ∧
      c.modes.user_limit.getD 0 ≤ c.members.card
  · rw [if_pos h1, if_pos h1]
    exact ⟨rfl, by rw [if_neg (fun h => nomatch h)]; exact hl⟩
  · rw [if_neg h1, if_neg h1]
    by_cases h2 : id ∈ c.modes.ban_list ∧ id ∉ c.modes.except_list
    · rw [if_pos h2, if_pos h2]
      exact ⟨rfl, by rw [if_neg (fun h => nomatch h)]; exact hl⟩
    · rw [if_neg h2, if_neg h2]
      by_cases h3 : c.modes.invite_only = true ∧ inv = false ∧
          id ∉ c.modes.invite_exceptions
      · rw [if_pos h3, if_pos h3]
        exact ⟨rfl, by rw [if_neg (fun h => nomatch h)]; exact hl⟩
      · rw [if_neg h3, if_neg h3]
        by_cases h4 : c.modes.key.isSome = true ∧ c.modes.key ≠ key
        · rw [if_pos h4, if_pos h4]
          exact ⟨rfl, by rw [if_neg (fun h => nomatch h)]; exact hl⟩
        · rw [if_neg h4, if_neg h4]
          by_cases h5 : id ∈ c.members
          · rw [if_pos h5, if_pos h5]
            exact ⟨rfl, by rw [if_neg (fun h => nomatch h)]; exact hl⟩
          · rw [if_neg h5, if_neg h5]
            refine ⟨rfl, ?_⟩
            rw [if_pos rfl]
            show aLookup (aInsert s1.channels name _) name = _
            rw [aLookup_aInsert_self]
            cases isNew <;> rfl

/-! Membership characterization of the user-MODE application loop. -/

/-- For a char present in the pre-command snapshot, one mode group can only
remove it, and does so exactly when the group is a `-` group listing it. -/
theorem mem_applyModeGroup_of_mem (current : Finset Char) (flag : Char)
    (ms : List Char) (acc : Finset Char) (m : Char) (hm : m ∈ current) :
    m ∈ applyModeGroup current flag ms acc ↔ m ∈ acc ∧ ¬(flag ≠ '+' ∧ m ∈ ms) := by
  induction ms generalizing acc with
  | nil => simp [applyModeGroup]
  | cons x xs ih =>
    rw [applyModeGroup, List.foldl_cons, ← applyModeGroup, ih]
    by_cases hf : flag = '+'
    · by_cases hx : x ∉ current
      · have hxm : ¬ m = x := fun h => hx (h ▸ hm)
        rw [if_pos hf, if_pos hx]
        simp only [Finset.mem_insert, List.mem_cons]
        tauto
      · rw [if_pos hf, if_neg hx]
        simp only [List.mem_cons]
        tauto
    · by_cases hx : x ∈ current
      · rw [if_neg hf, if_pos hx]
        simp only [Finset.mem_erase, List.mem_cons]
        tauto
      · have hxm : ¬ m = x := fun h => hx (h ▸ hm)
        rw [if_neg hf, if_neg hx]
        simp only [List.mem_cons]
        tauto

/-- For a char absent from the pre-command snapshot, one mode group can only
add it, and does so exactly when the group is a `+` group listing it. -/
theorem mem_applyModeGroup_of_not_mem (current : Finset Char) (flag : Char)
    (ms : List Char) (acc : Finset Char) (m : Char) (hm : m ∉ current) :
    m ∈ applyModeGroup current flag ms acc ↔ m ∈ acc ∨ (flag = '+' ∧ m ∈ ms) := by
  induction ms generalizing acc with
  | nil => simp [applyModeGroup]
  | cons x xs ih =>
    rw [applyModeGroup, List.foldl_cons, ← applyModeGroup, ih]
    by_cases hf : flag = '+'
    · by_cases hx : x ∉ current
      · rw [if_pos hf, if_pos hx]
        simp only [Finset.mem_insert, List.mem_cons]
        tauto
      · have hxm : ¬ m = x := fun h => hx (fun hc => hm (h ▸ hc)) |>.elim
        rw [if_pos hf, if_neg hx]
        simp only [List.mem_cons]
        tauto
    · by_cases hx : x ∈ current
      · have hxm : ¬ m = x := fun h => hm (h ▸ hx)
        rw [if_neg hf, if_pos hx]
        simp only [Finset.mem_erase, List.mem_cons]
        tauto
      · rw [if_neg hf, if_neg hx]
        simp only [List.mem_cons]
        tauto

/-- For a char in the snapshot, the whole change list keeps it iff no `-`
group lists it (each group is evaluated against the snapshot, not against the
accumulated result). -/
theorem mem_applyModeChanges_of_mem (current : Finset Char)
    (modes : List (Char × List Char)) (m : Char) (hm : m ∈ current) :
    m ∈ applyModeChanges current modes ↔
      ¬ ∃ p ∈ modes, p.1 ≠ '+' ∧ m ∈ p.2 := by
  suffices h : ∀ acc : Finset Char,
      m ∈ modes.foldl (fun acc p => applyModeGroup current p.1 p.2 acc) acc ↔
        m ∈ acc ∧ ¬ ∃ p ∈ modes, p.1 ≠ '+' ∧ m ∈ p.2 by
    rw [applyModeChanges, h current]
    simp [hm]
  intro acc
  induction modes generalizing acc with
  | nil => simp
  | cons p ps ih =>
    rw [List.foldl_cons, ih, mem_applyModeGroup_of_mem current p.1 p.2 acc m hm]
    constructor
    · rintro ⟨⟨hacc, h1⟩, h2⟩
      refine ⟨hacc, ?_⟩
      rintro ⟨q, hq, hqm⟩
      rcases List.mem_cons.mp hq with rfl | hq2
      · exact h1 hqm
      · exact h2 ⟨q, hq2, hqm⟩
    · rintro ⟨hacc, hno⟩
      exact ⟨⟨hacc, fun hc => hno ⟨p, List.mem_cons_self p ps, hc⟩⟩,
        fun ⟨q, hq, hqm⟩ => hno ⟨q, List.mem_cons_of_mem p hq, hqm⟩⟩

/-- For a char outside the snapshot, the whole change list sets it iff some
`+` group lists it. -/
theorem mem_applyModeChanges_of_not_mem (current : Finset Char)
    (modes : List (Char × List Char)) (m : Char) (hm : m ∉ current) :
    m ∈ applyModeChanges current modes ↔
      ∃ p ∈ modes, p.1 = '+' ∧ m ∈ p.2 := by
  suffices h : ∀ acc : Finset Char,
      m ∈ modes.foldl (fun acc p => applyModeGroup current p.1 p.2 acc) acc ↔
        m ∈ acc ∨ ∃ p ∈ modes, p.1 = '+' ∧ m ∈ p.2 by
    rw [applyModeChanges, h current]
    simp [hm]
  intro acc
  induction modes generalizing acc with
  | nil => simp
  | cons p ps ih =>
    rw [List.foldl_cons, ih, mem_applyModeGroup_of_not_mem current p.1 p.2 acc m hm]
    constructor
    · rintro ((hacc | hplus) | hex)
      · exact Or.inl hacc
      · exact Or.inr ⟨p, List.mem_cons_self p ps, hplus⟩
      · obtain ⟨q, hq, hqm⟩ := hex
        exact Or.inr ⟨q, List.mem_cons_of_mem p hq, hqm⟩
    · rintro (hacc | ⟨q, hq, hqm⟩)
      · exact Or.inl (Or.inl hacc)
      · rcases List.mem_cons.mp hq with rfl | hq2
        · exact Or.inl (Or.inr hqm)
        · exact Or.inr ⟨q, hq2, hqm⟩

/-- C9 (amended): in `UserState::with_modes` the flag-validity check runs
first, so a change list containing an unknown flag is answered with
`ERR_UMODEUNKNOWNFLAG` (501) and leaves the mode set unchanged even when the
target differs from the session's nickname; with valid flags, a target other
than the session's own nickname is answered with `ERR_USERSDONTMATCH` (502)
and leaves the mode set unchanged; and with valid flags and a matching
nickname no error is produced and each mode char `m` ends up set iff either
it was set and no `-m` group occurs, or it was unset and some `+m` group
occurs — in particular `+o`, `+O` and `-r` are applied like any other valid
change, not silently ignored. -/
theorem c9_user_mode_amended (u : User) (nick : String)
    (modes : List (Char × List Char)) (hreg : u.registered = true) :
    (modes_are_valid modes = false →
      with_modes u nick modes = .ok (some (.errUModeUnknownFlag nick), u))
  ∧ (modes_are_valid modes = true → u.nick ≠ some nick →
      with_modes u nick modes = .ok (some (.errUsersDontMatch nick), u))
  ∧ (modes_are_valid modes = true → u.nick = some nick →
      ∃ u2, with_modes u nick modes = .ok (none, u2) ∧
        ∀ m : Char, m ∈ u2.modes ↔
          (if m ∈ u.modes then ¬ ∃ p ∈ modes, p.1 = '-' ∧ m ∈ p.2
           else ∃ p ∈ modes, p.1 = '+' ∧ m ∈ p.2)) := by
  refine ⟨?_, ?_, ?_⟩
  · intro hv
    rw [with_modes, if_pos (by simp [hv])]
  · intro hv hn
    rw [with_modes, if_neg (by simp [hv]), if_neg (by simp [hreg]), if_pos hn]
  · intro hv hn
    refine ⟨{ u with modes := applyModeChanges u.modes modes },
      by rw [with_modes, if_neg (by simp [hv]), if_neg (by simp [hreg]),
             if_neg (by simp [hn])], ?_⟩
    intro m
    show m ∈ applyModeChanges u.modes modes ↔ _
    by_cases hm : m ∈ u.modes
    · rw [if_pos hm, mem_applyModeChanges_of_mem u.modes modes m hm]
      constructor
      · intro hno hex
        obtain ⟨p, hp, h1, h2⟩ := hex
        exact hno ⟨p, hp, by rw [h1]; decide, h2⟩
      · intro hno hex
        obtain ⟨p, hp, h1, h2⟩ := hex
        have hvp := List.all_eq_true.mp hv p hp
        rw [Bool.and_eq_true, Bool.or_eq_true, beq_iff_eq, beq_iff_eq] at hvp
        rcases hvp.1 with hminus | hplus
        · exact hno ⟨p, hp, hminus, h2⟩
        · exact h1 hplus
    · rw [if_neg hm, mem_applyModeChanges_of_not_mem u.modes modes m hm]

/-- C9 counterexample: with target `bob ≠ alice` and the unknown flag `z`,
`with_modes` answers 501 (not the claimed 502); and `+o` is not ignored: it
adds `o` to the mode set of a session that lacked it. -/
theorem c9_counterexample :
    with_modes uAlice "bob" [('+', ['z'])] =
      .ok (some (.errUModeUnknownFlag "bob"), uAlice)
  ∧ (with_modes uAlice "alice" [('+', ['o'])] =
      .ok (none, { uAlice with modes := {'o'} })
      ∧ 'o' ∈ ({ uAlice with modes := ({'o'} : Finset Char) }).modes) := by
  refine ⟨by decide, by decide, by decide⟩

/-- Witness for C9: a concrete 502 outcome obtained from the amended
theorem. -/
theorem c9_witness :
    with_modes uAlice "bobby" [('+', ['i'])] =
      .ok (some (.errUsersDontMatch "bobby"), uAlice) :=
  (c9_user_mode_amended uAlice "bobby" [('+', ['i'])] rfl).2.1 (by decide)
    (by decide)

/-- C10 (amended): each individual mode change is evaluated against the mode
set as it was before the whole command: for `m` not initially present,
`+m` then `-m` leaves `m` set (the `-` is a no-op because `m` was absent from
the snapshot); for `m` initially present, `-m` then `+m` leaves `m` UNSET
(the `+` is a no-op because `m` was present in the snapshot). -/
theorem c10_snapshot_semantics (u : User) (n : String) (m : Char)
    (hreg : u.registered = true) (hn : u.nick = some n) (hm : m ∈ KNOWN_MODES) :
    (m ∉ u.modes → ∃ u2,
        with_modes u n [('+', [m]), ('-', [m])] = .ok (none, u2) ∧ m ∈ u2.modes)
  ∧ (m ∈ u.modes → ∃ u2,
        with_modes u n [('-', [m]), ('+', [m])] = .ok (none, u2) ∧ m ∉ u2.modes) := by
  have hc : KNOWN_MODES.contains m = true := by
    simpa [List.contains] using hm
  constructor
  · intro hmem
    refine ⟨{ u with modes := applyModeChanges u.modes [('+', [m]), ('-', [m])] },
      ?_, ?_⟩
    · rw [with_modes, if_neg ?_, if_neg (by simp [hreg]), if_neg (by simp [hn])]
      simp [modes_are_valid, hm]
    · show m ∈ applyModeChanges u.modes [('+', [m]), ('-', [m])]
      rw [mem_applyModeChanges_of_not_mem u.modes _ m hmem]
      exact ⟨('+', [m]), by simp, rfl, by simp⟩
  · intro hmem
    refine ⟨{ u with modes := applyModeChanges u.modes [('-', [m]), ('+', [m])] },
      ?_, ?_⟩
    · rw [with_modes, if_neg ?_, if_neg (by simp [hreg]), if_neg (by simp [hn])]
      simp [modes_are_valid, hm]
    · show m ∉ applyModeChanges u.modes [('-', [m]), ('+', [m])]
      intro hin
      rw [mem_applyModeChanges_of_mem u.modes _ m hmem] at hin
      exact hin ⟨('-', [m]), by simp, by simp, by simp⟩

/-- C10 counterexample: for the initially present mode `i`, the change list
`[-i, +i]` leaves `i` unset, not set as the claim asserts. -/
theorem c10_counterexample :
    'i' ∈ uCarol.modes
  ∧ with_modes uCarol "carol" [('-', ['i']), ('+', ['i'])] =
      .ok (none, { uCarol with modes := ∅ })
  ∧ 'i' ∉ ({ uCarol with modes := (∅ : Finset Char) }).modes := by
  refine ⟨by decide, by decide, by decide⟩

/-- Witness for C10: the amended theorem applied to `uCarol` and mode `i`. -/
theorem c10_witness :
    ∃ u2, with_modes uCarol "carol" [('-', ['i']), ('+', ['i'])] =
      .ok (none, u2) ∧ 'i' ∉ u2.modes :=
  (c10_snapshot_semantics uCarol "carol" 'i' rfl rfl (by decide)).2 (by decide)

/-- C3 (failing run): register `bob` (id 1) and then QUIT him.
`ServerState::handle_quit` removes the session from the `users` index but
never removes the nickname binding, so afterwards `nicks` still maps `bob` to
the dead id 1 while no session with id 1 exists — the claimed invariant
`sessions[nicks[nick]].nick == nick` is broken, and the nickname was not
removed on unregistration as the spec requires. -/
theorem c3_quit_leaks_nick_binding :
    aLookup (handle_quit (add_connecting_user emptyState bobReg).1 1 none).1.nick
        "bob" = some 1
  ∧ aLookup (handle_quit (add_connecting_user emptyState bobReg).1 1 none).1.users
        1 = none := by
  refine ⟨by decide, by decide⟩

/-- C4 (failing run): session 2 has taken nickname `bob` via NICK while
session 1 is already registered as `bob`.  When session 2 completes
registration with USER, `when_registered` performs no collision check: the
session becomes `Active`, receives the 001 welcome (not the claimed 433), is
inserted into the `users` index, and `add_connecting_user` silently
overwrites the `nicks` binding of `bob` from id 1 to id 2. -/
theorem c4_user_registration_skips_collision_check :
    (handle_user_registration "srv" sBob bobSecond "bob" 0 "Bob B").1 =
      UserStatus.Active
  ∧ (handle_user_registration "srv" sBob bobSecond "bob" 0 "Bob B").2.1 =
      [":srv 001 bob :Welcome to the Internet Relay Network bob!bob@h2"]
  ∧ aLookup (handle_user_registration "srv" sBob bobSecond "bob" 0 "Bob B").2.2.1.nick
        "bob" = some 2
  ∧ (aLookup (handle_user_registration "srv" sBob bobSecond "bob" 0 "Bob B").2.2.1.users
        2).isSome = true := by
  refine ⟨by decide, by decide, by decide, by decide⟩

/-- C5 (failing run): `alice` (id 1) sends `PRIVMSG #c :hi`; the broadcast
payload carries her id as sender, but the per-subscription forwarder in
`client_writer_task` forwards every broadcast message unconditionally
(discarding the sender field), so `alice`'s own writer receives the line —
whereas the behaviour the claim describes (`forwarder_step_claim`) would have
dropped it. -/
theorem c5_forwarder_does_not_exclude_sender :
    handle_privmsg_channel sChanC 1 aliceReg "#c" "hi" = [privmsgHi]
  ∧ forwarder_step 1 privmsgHi =
      some { sender := none, raw_line := privmsgHi.raw_line }
  ∧ forwarder_step_claim 1 privmsgHi = none := by
  refine ⟨by decide, by decide, by decide⟩

/-- C8 (failing run): `alice` joins the fresh channel `#chat`.  The JOIN
relay and the 331/353 replies are as the claim states, but the end-of-names
reply is emitted with numeric 353 — `constants.rs` sets `RPL_ENDOFNAMES_NB`
to 353 although its own comment (and the claim) say 366. -/
theorem c8_endofnames_uses_wrong_numeric :
    (handle_join_channel_one "srv" sAlice 1 aliceReg "#chat" none).2.1 =
      [":alice!alice@host JOIN :#chat"]
  ∧ (handle_join_channel_one "srv" sAlice 1 aliceReg "#chat" none).1 =
      [":srv 331 alice #chat :No topic is set",
       ":srv 353 alice = #chat :@alice",
       ":srv 353 alice #chat :End of NAMES list"]
  ∧ RPL_ENDOFNAMES_NB = 353 ∧ RPL_ENDOFNAMES_NB ≠ 366 := by
  refine ⟨by decide, by decide, by decide, by decide⟩

/-- C6: a JOIN of a channel by a session that is already a member — in any
mode configuration of the channel, including a set user limit, a ban list
entry, or a key — broadcasts no JOIN relay to the channel, leaves the whole
server state (hence the channel's members, operators, voiced, modes and
topic) unchanged, and leaves the session state unchanged. -/
theorem c6_idempotent_join (srv : String) (s : ServerState) (id : ClientId)
    (u : User) (name : ChannelName) (key : Option String) (c : IrcChannel)
    (hreg : u.registered = true) (hc : aLookup s.channels name = some c)
    (hm : id ∈ c.members) :
    (handle_join_channel_one srv s id u name key).2.1 = []
  ∧ (handle_join_channel_one srv s id u name key).2.2.1 = s
  ∧ (handle_join_channel_one srv s id u name key).2.2.2 = u := by
  have hg := get_or_create_of_lookup hc
  simp only [handle_join_channel_one, handle_join, hg, hreg]
  split_ifs <;> exact ⟨rfl, rfl, rfl⟩

/-- Witness for C6: id 1 rejoining `#x` in the two-channel fixture changes
nothing and broadcasts nothing. -/
theorem c6_witness :
    (handle_join_channel_one "srv" sShared 1 uQuitter "#x" none).2.1 = []
  ∧ (handle_join_channel_one "srv" sShared 1 uQuitter "#x" none).2.2.1 = sShared
  ∧ (handle_join_channel_one "srv" sShared 1 uQuitter "#x" none).2.2.2 = uQuitter :=
  c6_idempotent_join "srv" sShared 1 uQuitter "#x" none
    { IrcChannel.new "#x" with members := {1, 2} } rfl (by decide) (by decide)

/-- C7: the unknown-command handler replies
`:<server> 421 <nick> <command> :Unknown command` with `<nick>` the session's
nickname when it is registered and `*` otherwise and `<command>` the leading
token of the line, leaves the session state unchanged, and never returns a
`Leaving` status (so the connection loop keeps the session as it was). -/
theorem c7_unknown_command (srv cmd : String) (u : User) (n : String) :
    (u.registered = true → u.nick = some n →
      (IrcUnknownCommand.handle_command srv cmd u).1 =
        ":" ++ srv ++ " " ++ "421" ++ " " ++ n ++ " " ++ take_till_space cmd ++
          " :Unknown command")
  ∧ (u.registered = false →
      (IrcUnknownCommand.handle_command srv cmd u).1 =
        ":" ++ srv ++ " " ++ "421" ++ " " ++ "*" ++ " " ++ take_till_space cmd ++
          " :Unknown command")
  ∧ (IrcUnknownCommand.handle_command srv cmd u).2.2 = u
  ∧ ∀ r, (IrcUnknownCommand.handle_command srv cmd u).2.1 ≠ UserStatus.Leaving r := by
  refine ⟨?_, ?_, rfl, ?_⟩
  · intro h1 h2
    simp only [IrcUnknownCommand.handle_command, h1, h2]
    rfl
  · intro h1
    simp only [IrcUnknownCommand.handle_command, h1]
    rfl
  · intro r
    simp only [IrcUnknownCommand.handle_command]
    split <;> try split
    all_goals simp

/-- Witness for C7: a registered `alice` sending the unknown line
`BOGUS arg`. -/
theorem c7_witness :
    (IrcUnknownCommand.handle_command "srv" "BOGUS arg" aliceReg).1 =
      ":srv 421 alice BOGUS :Unknown command" := by
  have h := (c7_unknown_command "srv" "BOGUS arg" aliceReg "alice").1 rfl rfl
  rw [h]
  decide

/-- Membership in `get_unique_neighboors`: exactly the non-excluded members
of the looked-up channels. -/
theorem mem_get_unique_neighboors (s : ServerState) (names : Finset ChannelName)
    (ex : Option ClientId) (n : ClientId) :
    n ∈ get_unique_neighboors s names ex ↔
      (∃ ch ∈ names, ∃ c, aLookup s.channels ch = some c ∧ n ∈ c.members) ∧
        some n ≠ ex := by
  unfold get_unique_neighboors
  rw [Finset.mem_biUnion]
  constructor
  · rintro ⟨ch, hch, hn⟩
    cases hc : aLookup s.channels ch with
    | none => rw [hc] at hn; exact absurd hn (Finset.not_mem_empty n)
    | some c =>
      rw [hc] at hn
      obtain ⟨hmm, hne⟩ := Finset.mem_filter.mp hn
      exact ⟨⟨ch, hch, c, hc, hmm⟩, hne⟩
  · rintro ⟨⟨ch, hch, c, hc, hmm⟩, hne⟩
    exact ⟨ch, hch, by rw [hc]; exact Finset.mem_filter.mpr ⟨hmm, hne⟩⟩

/-- C2: when a session quits, exactly one QUIT relay is enqueued to every
other existing connection sharing at least one channel with it — regardless
of how many channels they share — and none to the quitter itself or to
connections sharing no channel. -/
theorem c2_quit_relay_exactly_once (s : ServerState) (id : ClientId)
    (reason : Option String) (u : User) (hu : aLookup s.users id = some u)
    (n : ClientId) :
    ((handle_quit s id reason).2.map Prod.fst).count n =
      if n ≠ id ∧ (∃ ch ∈ u.member_of, ∃ c, aLookup s.channels ch = some c ∧
            n ∈ c.members)
          ∧ (aLookup s.users n).isSome = true
      then 1 else 0 := by
  simp only [handle_quit, hu, broadcast_to_neighbors, Multiset.map_map,
    Function.comp, Multiset.map_id']
  by_cases hcond : n ≠ id ∧ (∃ ch ∈ u.member_of, ∃ c,
      aLookup s.channels ch = some c ∧ n ∈ c.members)
      ∧ (aLookup s.users n).isSome = true
  · rw [if_pos hcond]
    apply Multiset.count_eq_one_of_mem (Finset.nodup _)
    rw [Finset.mem_val, Finset.mem_filter]
    refine ⟨?_, ?_⟩
    · rw [mem_get_unique_neighboors]
      exact ⟨hcond.2.1, fun hh => hcond.1 (Option.some_injective _ hh)⟩
    · rw [aLookup_aErase_ne s.users id n hcond.1]
      exact hcond.2.2
  · rw [if_neg hcond]
    rw [Multiset.count_eq_zero]
    intro hmem
    rw [Finset.mem_val, Finset.mem_filter, mem_get_unique_neighboors] at hmem
    obtain ⟨⟨hex, hne⟩, hsome⟩ := hmem
    have hnid : n ≠ id := fun hh => hne (by rw [hh])
    rw [aLookup_aErase_ne s.users id n hnid] at hsome
    exact hcond ⟨hnid, hex, hsome⟩

/-- Witness for C2: in the two-shared-channel fixture, the neighbour (id 2)
receives exactly one QUIT relay when id 1 quits. -/
theorem c2_witness :
    ((handle_quit sShared 1 (some "bye")).2.map Prod.fst).count 2 = 1 := by
  rw [c2_quit_relay_exactly_once sShared 1 (some "bye") uQuitter (by decide) 2]
  rw [if_pos ⟨by decide,
    ⟨"#x", by decide, { IrcChannel.new "#x" with members := {1, 2} },
      by decide, by decide⟩, by decide⟩]

end Irc
